import Mathlib

/-!
Shallow embedding of the Renovate title watcher.

The repository holds two variants of the same application:

* `renovate.py` together with `utils.py`: the `Renovate.Process*Title`
  reconciler functions and the `Utility.GET` / `Utility.POST` transport;
* `services/*.py` together with `handlers/http.py`: the `*.IsUpdated`
  adapter functions and the `HTTP.GET` transport.

Both variants are embedded below.  Network effects are passed in as explicit
inputs (the fetched response, the outcomes of the HTTP attempts, whether the
webhook delivery succeeded, the current wall-clock second for cache busting),
and each function returns the updated in-memory history together with the
notifications it attempted.
-/

/-- History mapping per platform, embedding the JSON objects stored in
history.json: an association list from title identifier to last seen
version string. -/
abbrev HMap := List (String × String)

/-- Embedding of Python `dict.get` on a history mapping. -/
def HMap.get? : HMap → String → Option String
  | [], _ => none
  | (k, v) :: rest, key => if k = key then some v else HMap.get? rest key

/-- Embedding of Python dict item assignment on a history mapping: replace
the value under an existing key, otherwise append the pair. -/
def HMap.set : HMap → String → String → HMap
  | [], key, val => [(key, val)]
  | (k, v) :: rest, key, val =>
      if k = key then (k, val) :: rest else (k, v) :: HMap.set rest key val

/-- Notification payload dict built by the `renovate.py` `Process*Title`
functions and handed to `Renovate.Notify`. -/
structure Notification where
  name : String
  url : String
  timestamp : Option String := none
  platformColor : String
  region : Option String := none
  titleId : String
  thumbnail : Option String := none
  image : Option String := none
  pastVersion : String
  currentVersion : String
  build : Option String := none
  deriving DecidableEq

/-- Discord embed object built by the services-variant `BuildEmbed`
functions and returned from `IsUpdated` for the caller to deliver. -/
structure Embed where
  title : String
  url : String
  color : String
  previousField : String
  currentField : String
  footer : String
  thumbnail : Option String := none
  image : Option String := none
  buildField : Option String := none
  deriving DecidableEq

/-- Embedding of the cache-busting suffix the services `BuildEmbed`
functions append: `if thumbnail: embed.set_thumbnail(f"{thumbnail}?{int(now)}")`,
where an empty string is falsy and therefore skipped. -/
def cacheBust (o : Option String) (now : Nat) : Option String :=
  match o with
  | none => none
  | some t => if t = "" then none else some (t ++ "?" ++ toString now)

/-- Embedding of the optional build-name field the services Battle.net
`BuildEmbed` appends: `if build: embed.add_embed_field(..., f"... {build} ...")`. -/
def buildWrap (o : Option String) : Option String :=
  match o with
  | none => none
  | some b => if b = "" then none else some ("```\n" ++ b ++ "```")

/-- One per-region entry of the BlizzTrack versions response,
`data["result"]["data"][i]`. -/
structure BattleEntry where
  name : String
  version_name : String
  build_config : String
  deriving DecidableEq

/-- The `result` object of the BlizzTrack versions response. -/
structure BattleResult where
  tact : String
  name : String
  data : List BattleEntry
  encrypted : Bool
  created_at : String
  deriving DecidableEq

/-- The BlizzTrack versions response body. -/
structure BattleResponse where
  success : Bool
  result : BattleResult
  deriving DecidableEq

/-- Accumulator of the region-selection loop: the region name, version and
build config currently selected. -/
structure RegionSel where
  region : String
  current : String
  build : String
  deriving DecidableEq

/-- Embedding of Python `str.lower()`, character by character. -/
def strLower (s : String) : String := ⟨s.data.map Char.toLower⟩

/-- Region-selection loop of `renovate.py` `ProcessBattleTitle`: iterate over
all entries and take any entry whose name equals the currently selected
region case-insensitively (the configured region initially). -/
def selectRegionRenovate (entries : List BattleEntry) (init : RegionSel) : RegionSel :=
  entries.foldl
    (fun acc e =>
      if strLower e.name = strLower acc.region then
        { region := e.name, current := e.version_name, build := e.build_config }
      else acc)
    init

/-- Region-selection loop of `services/battlenet.py` `IsUpdated`: iterate over
all entries and take any entry whose lowercased name is the hardcoded
preferred region "americas". -/
def selectRegionServices (entries : List BattleEntry) (init : RegionSel) : RegionSel :=
  entries.foldl
    (fun acc e =>
      if strLower e.name = "americas" then
        { region := e.name, current := e.version_name, build := e.build_config }
      else acc)
    init

/-- Notification dict literal of `renovate.py` `ProcessBattleTitle`. -/
def mkBattleNote (name titleId : String) (sel : RegionSel) (past : String)
    (thumbnail buildField : Option String) (created : String) : Notification :=
  { name := name
    url := "https://blizztrack.com/view/" ++ titleId ++ "?type=versions"
    timestamp := some created
    platformColor := "148EFF"
    region := some sel.region
    titleId := titleId
    thumbnail := thumbnail
    pastVersion := "`" ++ past ++ "`"
    currentVersion := "`" ++ sel.current ++ "`"
    build := buildField }

/-- Embedding of `Renovate.ProcessBattleTitle` (renovate.py).  `titleId0` and
`region0` come from the configured title, `fetch` is the result of the
versions GET, `thumbnail` the icon found via the fragments lookup, and
`buildName` the result of `Utility.GetBattleBuild`; `deliver` is whether the
webhook POST performed by `Renovate.Notify` succeeds.  Indexing an empty
`data` list raises, which is modelled as `.error`. -/
def ProcessBattleTitle (titleId0 region0 : String) (hist : HMap) (changed : Bool)
    (fetch : Option BattleResponse) (thumbnail buildName : Option String)
    (deliver : Bool) : Except String (HMap × Bool × List Notification) :=
  match fetch with
  | none => .ok (hist, changed, [])
  | some data =>
    if data.success = false then .ok (hist, changed, [])
    else
      match data.result.data with
      | [] => .error "IndexError"
      | e0 :: rest =>
        let titleId := data.result.tact
        let sel := selectRegionRenovate (e0 :: rest)
          { region := region0, current := e0.version_name, build := e0.build_config }
        match HMap.get? hist titleId0 with
        | none => .ok (HMap.set hist titleId sel.current, true, [])
        | some past =>
          if past = sel.current then .ok (hist, changed, [])
          else
            let note := mkBattleNote data.result.name titleId sel past thumbnail
              (if data.result.encrypted then none else buildName) data.result.created_at
            if deliver then .ok (HMap.set hist titleId sel.current, true, [note])
            else .ok (hist, changed, [note])

/-- Embed literal of `services/battlenet.py` `BuildEmbed`. -/
def mkBattleEmbed (name titleId : String) (sel : RegionSel) (previous : String)
    (icon keyart buildName : Option String) (now : Nat) : Embed :=
  { title := name
    url := "https://blizztrack.com/view/" ++ titleId ++ "?type=versions"
    color := "148EFF"
    previousField := "```diff\n- " ++ previous ++ "\n```"
    currentField := "```diff\n+ " ++ sel.current ++ "\n```"
    footer := titleId ++ " (" ++ sel.region ++ ")"
    thumbnail := cacheBust icon now
    image := cacheBust keyart now
    buildField := buildWrap buildName }

/-- Embedding of `Battlenet.IsUpdated` (services/battlenet.py).  `icon`,
`keyart` and `buildName` are the results of the auxiliary fragment and CDN
lookups.  The history write happens inside this function, before the embed
is returned to the caller for delivery.  A falsy (absent or empty) previous
version is treated as previously untracked. -/
def BattlenetIsUpdated (titleId0 : String) (hist : HMap) (changed : Bool)
    (fetch : Option BattleResponse) (icon keyart buildName : Option String)
    (now : Nat) : Except String (HMap × Bool × Option Embed) :=
  match fetch with
  | none => .ok (hist, changed, none)
  | some data =>
    if data.success = false then .ok (hist, changed, none)
    else
      match data.result.data with
      | [] => .error "IndexError"
      | e0 :: rest =>
        let titleId := data.result.tact
        let sel := selectRegionServices (e0 :: rest)
          { region := e0.name, current := e0.version_name, build := e0.build_config }
        match HMap.get? hist titleId0 with
        | none => .ok (HMap.set hist titleId sel.current, true, none)
        | some previous =>
          if previous = "" then .ok (HMap.set hist titleId sel.current, true, none)
          else if previous = sel.current then .ok (hist, changed, none)
          else .ok (HMap.set hist titleId sel.current, true,
            some (mkBattleEmbed data.result.name titleId sel previous icon keyart
              buildName now))

/-- The `metadata` object shared by the ProsperoPatches and OrbisPatches
lookup responses. -/
structure PSMetadata where
  name : String
  region : String
  currentVersion : String
  icon : String
  background : String
  deriving DecidableEq

/-- A ProsperoPatches or OrbisPatches lookup response body. -/
structure PSResponse where
  success : Bool
  metadata : PSMetadata
  deriving DecidableEq

/-- Notification dict literal of `renovate.py` `ProcessProsperoTitle`. -/
def mkProsperoNote (titleId : String) (m : PSMetadata) (past : String) : Notification :=
  { name := m.name
    url := "https://prosperopatches.com/" ++ titleId
    platformColor := "00439C"
    region := some m.region
    titleId := titleId
    thumbnail := some m.icon
    image := some m.background
    pastVersion := "`" ++ past ++ "`"
    currentVersion := "`" ++ m.currentVersion ++ "`" }

/-- Embedding of `Renovate.ProcessProsperoTitle` (renovate.py). -/
def ProcessProsperoTitle (titleId : String) (hist : HMap) (changed : Bool)
    (fetch : Option PSResponse) (deliver : Bool) : HMap × Bool × List Notification :=
  match fetch with
  | none => (hist, changed, [])
  | some data =>
    if data.success = false then (hist, changed, [])
    else
      match HMap.get? hist titleId with
      | none => (HMap.set hist titleId data.metadata.currentVersion, true, [])
      | some past =>
        if past = data.metadata.currentVersion then (hist, changed, [])
        else
          let note := mkProsperoNote titleId data.metadata past
          if deliver then
            (HMap.set hist titleId data.metadata.currentVersion, true, [note])
          else (hist, changed, [note])

/-- Embed literal of `services/prospero.py` `BuildEmbed`. -/
def mkProsperoEmbed (titleId : String) (m : PSMetadata) (previous : String)
    (now : Nat) : Embed :=
  { title := m.name
    url := "https://prosperopatches.com/" ++ titleId
    color := "00439C"
    previousField := "```diff\n- " ++ previous ++ "\n```"
    currentField := "```diff\n+ " ++ m.currentVersion ++ "\n```"
    footer := titleId ++ " (" ++ m.region ++ ")"
    thumbnail := cacheBust (some m.icon) now
    image := cacheBust (some m.background) now }

/-- Embedding of `Prospero.IsUpdated` (services/prospero.py).  The history
write happens inside this function, before the embed is returned; a falsy
previous version counts as previously untracked. -/
def ProsperoIsUpdated (titleId : String) (hist : HMap) (changed : Bool)
    (fetch : Option PSResponse) (now : Nat) : HMap × Bool × Option Embed :=
  match fetch with
  | none => (hist, changed, none)
  | some data =>
    if data.success = false then (hist, changed, none)
    else
      match HMap.get? hist titleId with
      | none => (HMap.set hist titleId data.metadata.currentVersion, true, none)
      | some previous =>
        if previous = "" then
          (HMap.set hist titleId data.metadata.currentVersion, true, none)
        else if previous = data.metadata.currentVersion then (hist, changed, none)
        else
          (HMap.set hist titleId data.metadata.currentVersion, true,
            some (mkProsperoEmbed titleId data.metadata previous now))

/-- Embed literal of `services/orbis.py` `BuildEmbed` (plain inline code
fields rather than diff blocks). -/
def mkOrbisEmbed (titleId : String) (m : PSMetadata) (previous : String)
    (now : Nat) : Embed :=
  { title := m.name
    url := "https://orbispatches.com/" ++ titleId
    color := "00439C"
    previousField := "`" ++ previous ++ "`"
    currentField := "`" ++ m.currentVersion ++ "`"
    footer := titleId ++ " (" ++ m.region ++ ")"
    thumbnail := cacheBust (some m.icon) now
    image := cacheBust (some m.background) now }

/-- Embedding of `Orbis.IsUpdated` (services/orbis.py). -/
def OrbisIsUpdated (titleId : String) (hist : HMap) (changed : Bool)
    (fetch : Option PSResponse) (now : Nat) : HMap × Bool × Option Embed :=
  match fetch with
  | none => (hist, changed, none)
  | some data =>
    if data.success = false then (hist, changed, none)
    else
      match HMap.get? hist titleId with
      | none => (HMap.set hist titleId data.metadata.currentVersion, true, none)
      | some previous =>
        if previous = "" then
          (HMap.set hist titleId data.metadata.currentVersion, true, none)
        else if previous = data.metadata.currentVersion then (hist, changed, none)
        else
          (HMap.set hist titleId data.metadata.currentVersion, true,
            some (mkOrbisEmbed titleId data.metadata previous now))

/-- The `common` block of a SteamCMD info response. -/
structure SteamCommon where
  name : String
  icon : String
  deriving DecidableEq

/-- The per-app object `data["data"][str(appId)]` of a SteamCMD info
response.  `buildid` is the value reached via the
`depots -> branches -> public -> buildid` path, `none` when any step of
that path is missing (both variants wrap the walk in try/except). -/
structure SteamApp where
  common : Option SteamCommon
  buildid : Option String
  deriving DecidableEq

/-- A SteamCMD info response body. -/
structure SteamResponse where
  status : String
  app : SteamApp
  deriving DecidableEq

/-- Notification dict literal of `renovate.py` `ProcessSteamTitle`. -/
def mkSteamNote (appId : String) (c : SteamCommon) (past current : String) : Notification :=
  { name := c.name
    url := "https://steamdb.info/app/" ++ appId ++ "/patchnotes/"
    platformColor := "1B2838"
    titleId := appId
    thumbnail := some ("https://cdn.cloudflare.steamstatic.com/steamcommunity/public/images/apps/"
      ++ appId ++ "/" ++ c.icon ++ ".jpg")
    image := some ("https://cdn.cloudflare.steamstatic.com/steam/apps/" ++ appId ++ "/header.jpg")
    pastVersion := "`" ++ past ++ "`"
    currentVersion := "`" ++ current ++ "`" }

/-- Embedding of `Renovate.ProcessSteamTitle` (renovate.py).  The `common`
block is read with plain subscripts outside of any try/except, so a missing
`common` raises an uncaught KeyError, modelled as `.error`; a missing depots
path is caught and logged, yielding a plain return. -/
def ProcessSteamTitle (appId : String) (hist : HMap) (changed : Bool)
    (fetch : Option SteamResponse) (deliver : Bool) :
    Except String (HMap × Bool × List Notification) :=
  match fetch with
  | none => .ok (hist, changed, [])
  | some data =>
    if data.status ≠ "success" then .ok (hist, changed, [])
    else
      match data.app.common with
      | none => .error "KeyError"
      | some c =>
        match data.app.buildid with
        | none => .ok (hist, changed, [])
        | some current =>
          match HMap.get? hist appId with
          | none => .ok (HMap.set hist appId current, true, [])
          | some past =>
            if past = current then .ok (hist, changed, [])
            else
              let note := mkSteamNote appId c past current
              if deliver then .ok (HMap.set hist appId current, true, [note])
              else .ok (hist, changed, [note])

/-- Embed literal of `services/steam.py` `BuildEmbed`. -/
def mkSteamEmbed (appId : String) (c : SteamCommon) (previous current : String)
    (now : Nat) : Embed :=
  { title := c.name
    url := "https://steamdb.info/app/" ++ appId ++ "/patchnotes/"
    color := "1B2838"
    previousField := "```diff\n- " ++ previous ++ "\n```"
    currentField := "```diff\n+ " ++ current ++ "\n```"
    footer := appId
    thumbnail := cacheBust
      (some ("https://cdn.cloudflare.steamstatic.com/steamcommunity/public/images/apps/"
        ++ appId ++ "/" ++ c.icon ++ ".jpg")) now
    image := cacheBust
      (some ("https://cdn.cloudflare.steamstatic.com/steam/apps/" ++ appId ++ "/header.jpg")) now }

/-- Embedding of `Steam.IsUpdated` (services/steam.py).  A missing `common`
block is checked with `.get` and handled as a logged no-update; the depots
path walk is wrapped in try/except and likewise handled.  The history write
happens inside this function, before the embed is returned. -/
def SteamIsUpdated (appId : String) (hist : HMap) (changed : Bool)
    (fetch : Option SteamResponse) (now : Nat) : HMap × Bool × Option Embed :=
  match fetch with
  | none => (hist, changed, none)
  | some data =>
    if data.status ≠ "success" then (hist, changed, none)
    else
      match data.app.common with
      | none => (hist, changed, none)
      | some c =>
        match data.app.buildid with
        | none => (hist, changed, none)
        | some current =>
          match HMap.get? hist appId with
          | none => (HMap.set hist appId current, true, none)
          | some previous =>
            if previous = "" then (HMap.set hist appId current, true, none)
            else if previous = current then (hist, changed, none)
            else
              (HMap.set hist appId current, true,
                some (mkSteamEmbed appId c previous current now))

/-- Top-level object of a parsed history.json file: platform key to either
a mapping or JSON null.  An absent key is simply not in the list. -/
abbrev JsonHist := List (String × Option HMap)

/-- Lookup of a top-level key in a parsed history file; `none` means the key
is absent, `some none` that it is present but null. -/
def jget : JsonHist → String → Option (Option HMap)
  | [], _ => none
  | (k, v) :: rest, key => if k = key then some v else jget rest key

/-- Item assignment on the top level of a parsed history file. -/
def jset : JsonHist → String → Option HMap → JsonHist
  | [], key, val => [(key, val)]
  | (k, v) :: rest, key, val =>
      if k = key then (k, val) :: rest else (k, v) :: jset rest key val

/-- Embedding of `history.get(key) is None`: true when the key is absent or
maps to JSON null. -/
def pyGetIsNone (j : JsonHist) (k : String) : Bool :=
  match jget j k with
  | some (some _) => false
  | _ => true

/-- One of the four `if history.get(key) is None: history[key] = {}`
normalization steps of `Renovate.LoadHistory`. -/
def fixPlatformKey (j : JsonHist) (k : String) : JsonHist :=
  if pyGetIsNone j k then jset j k (some []) else j

/-- The empty skeleton `LoadHistory` writes when history.json is absent. -/
def emptySkeleton : JsonHist :=
  [("battle", some []), ("prospero", some []), ("orbis", some []), ("steam", some [])]

/-- The four normalization steps of `Renovate.LoadHistory`, in program order. -/
def normalizeHistory (j : JsonHist) : JsonHist :=
  fixPlatformKey (fixPlatformKey (fixPlatformKey (fixPlatformKey j "battle")
    "prospero") "orbis") "steam"

/-- Embedding of `Renovate.LoadHistory` (renovate.py).  The input is the
parsed contents of history.json, `none` when the file does not exist.  The
returned flag records whether the empty skeleton was persisted to disk
(the FileNotFoundError branch).  A file that exists but cannot be read or
parsed terminates the process and is outside this model. -/
def LoadHistory (file : Option JsonHist) : JsonHist × Bool :=
  match file with
  | none => (normalizeHistory emptySkeleton, true)
  | some j => (normalizeHistory j, false)

/-- Abstract HTTP response body: its raw text and, when the text parses as
JSON, the parsed value (represented abstractly by a string). -/
structure Body where
  text : String
  json : Option String
  deriving DecidableEq

/-- Outcome of one HTTP request attempt, keyed by the exception branch the
source dispatches on: a response with a 2xx status, a response whose
`raise_for_status` raises (4xx/5xx), a timeout, or any other exception. -/
inductive Attempt where
  | ok (body : Body)
  | httpError (status : Nat)
  | timeout
  | otherExc
  deriving DecidableEq

/-- Whether an attempt outcome enters one of the exception branches. -/
def Attempt.isFailure : Attempt → Bool
  | .ok _ => false
  | _ => true

/-- Value a GET embedding hands back to its caller. -/
inductive GetResult where
  | parsed (v : String)
  | rawText (t : String)
  | noData
  | raised
  deriving DecidableEq

/-- Observable trace of a GET call: how many request attempts were made,
the sleeps performed between them, whether anything was logged at error
severity, and the value returned (or exception raised) to the caller. -/
structure GetTrace where
  attempts : Nat
  sleeps : List Nat
  errorLogged : Bool
  result : GetResult
  deriving DecidableEq

/-- Parse step shared by the `Utility.GET` branches: with `raw=True` return
the response text, otherwise `json.loads(data)`, which raises on a body
that is not valid JSON (the call is outside the try block). -/
def utilsParse (b : Body) (raw : Bool) : GetResult :=
  if raw then .rawText b.text
  else
    match b.json with
    | some v => .parsed v
    | none => .raised

/-- Embedding of `Utility.GET` (utils.py).  `a1` is the outcome of the
first request attempt and `a2` of the retry.  On any exception with
`isRetry=False` the function logs at debug severity, sleeps 10 seconds and
calls itself once with `isRetry=True`; on a repeated HTTPError or other
exception it logs at error severity, on a repeated timeout only at debug
severity, and returns None. -/
def utilsGET (a1 a2 : Attempt) (raw : Bool) : GetTrace :=
  match a1 with
  | .ok b => { attempts := 1, sleeps := [], errorLogged := false, result := utilsParse b raw }
  | _ =>
    match a2 with
    | .ok b => { attempts := 2, sleeps := [10], errorLogged := false, result := utilsParse b raw }
    | .httpError _ => { attempts := 2, sleeps := [10], errorLogged := true, result := .noData }
    | .timeout => { attempts := 2, sleeps := [10], errorLogged := false, result := .noData }
    | .otherExc => { attempts := 2, sleeps := [10], errorLogged := true, result := .noData }

/-- Observable trace of a POST call. -/
structure PostTrace where
  attempts : Nat
  sleeps : List Nat
  errorLogged : Bool
  delivered : Bool
  deriving DecidableEq

/-- Embedding of `Utility.POST` (utils.py): a single attempt, no retry;
HTTPError and other exceptions log at error severity, a timeout at debug
severity, and every exception reports False immediately. -/
def utilsPOST (a : Attempt) : PostTrace :=
  match a with
  | .ok _ => { attempts := 1, sleeps := [], errorLogged := false, delivered := true }
  | .httpError _ => { attempts := 1, sleeps := [], errorLogged := true, delivered := false }
  | .timeout => { attempts := 1, sleeps := [], errorLogged := false, delivered := false }
  | .otherExc => { attempts := 1, sleeps := [], errorLogged := true, delivered := false }

/-- Embedding of `HTTP.GET` (handlers/http.py): a single attempt, no retry.
A body that is not JSON falls back to the raw text at debug severity.  A
4xx/5xx status lands in the generic exception branch, where HTTP 500 is
silenced at debug severity and anything else logs at error severity; either
way None is returned.  A timeout logs at debug severity and returns None.
Any other exception from the request itself leaves `res` unbound, so the
`hasattr(res, ...)` check in the handler raises out of the function. -/
def httpGET (a : Attempt) : GetTrace :=
  match a with
  | .ok b =>
    { attempts := 1, sleeps := [], errorLogged := false
      result :=
        match b.json with
        | some v => .parsed v
        | none => .rawText b.text }
  | .httpError status =>
    { attempts := 1, sleeps := [], errorLogged := status ≠ 500, result := .noData }
  | .timeout => { attempts := 1, sleeps := [], errorLogged := false, result := .noData }
  | .otherExc => { attempts := 1, sleeps := [], errorLogged := false, result := .raised }

/-! Helper lemmas about the history maps and the region-selection loops. -/

/-- Setting a key and reading it back yields the written value. -/
theorem HMap.get_set_self (h : HMap) (k v : String) :
    HMap.get? (HMap.set h k v) k = some v := by
  induction h with
  | nil => simp [HMap.set, HMap.get?]
  | cons p rest ih =>
    by_cases hk : p.1 = k
    · simp [HMap.set, hk, HMap.get?]
    · simpa [HMap.set, hk, HMap.get?] using ih

/-- Setting one key leaves every other key unchanged. -/
theorem HMap.get_set_ne (h : HMap) (k k' v : String) (hne : k' ≠ k) :
    HMap.get? (HMap.set h k v) k' = HMap.get? h k' := by
  have hkk : ¬(k = k') := fun hh => hne hh.symm
  induction h with
  | nil => simp [HMap.set, HMap.get?, hkk]
  | cons p rest ih =>
    by_cases hk : p.1 = k
    · simp [HMap.set, hk, HMap.get?, hkk]
    · simp only [HMap.set, hk, if_false, HMap.get?]
      by_cases hk' : p.1 = k'
      · simp [hk']
      · simp [hk', ih]

/-- Setting a top-level history key and reading it back yields the value. -/
theorem jget_jset_self (j : JsonHist) (k : String) (v : Option HMap) :
    jget (jset j k v) k = some v := by
  induction j with
  | nil => simp [jset, jget]
  | cons p rest ih =>
    by_cases hk : p.1 = k
    · simp [jset, hk, jget]
    · simpa [jset, hk, jget] using ih

/-- Setting one top-level history key leaves the other keys unchanged. -/
theorem jget_jset_ne (j : JsonHist) (k k' : String) (v : Option HMap) (hne : k' ≠ k) :
    jget (jset j k v) k' = jget j k' := by
  have hkk : ¬(k = k') := fun hh => hne hh.symm
  induction j with
  | nil => simp [jset, jget, hkk]
  | cons p rest ih =>
    by_cases hk : p.1 = k
    · simp [jset, hk, jget, hkk]
    · simp only [jset, hk, if_false, jget]
      by_cases hk' : p.1 = k'
      · simp [hk']
      · simp [hk', ih]

/-- After normalizing a key, that key is present and non-null. -/
theorem fixPlatformKey_nonNull (j : JsonHist) (k : String) :
    ∃ m, jget (fixPlatformKey j k) k = some (some m) := by
  unfold fixPlatformKey
  cases hp : pyGetIsNone j k with
  | true =>
    refine ⟨[], ?_⟩
    simp [jget_jset_self]
  | false =>
    simp only [Bool.false_eq_true, if_false]
    unfold pyGetIsNone at hp
    cases hj : jget j k with
    | none => rw [hj] at hp; simp at hp
    | some o =>
      cases o with
      | none => rw [hj] at hp; simp at hp
      | some m => exact ⟨m, rfl⟩

/-- Normalizing one key preserves present-and-non-null at any other key. -/
theorem fixPlatformKey_preserves (j : JsonHist) (k k' : String) (hne : k' ≠ k)
    (h : ∃ m, jget j k' = some (some m)) :
    ∃ m, jget (fixPlatformKey j k) k' = some (some m) := by
  obtain ⟨m, hm⟩ := h
  unfold fixPlatformKey
  cases hp : pyGetIsNone j k with
  | true => exact ⟨m, by simp [jget_jset_ne j k k' _ hne, hm]⟩
  | false => exact ⟨m, by simpa using hm⟩

/-- The renovate.py region loop leaves its accumulator untouched when no
entry name matches the selected region case-insensitively. -/
theorem selectRegionRenovate_no_match (entries : List BattleEntry) (init : RegionSel)
    (h : ∀ e ∈ entries, strLower e.name ≠ strLower init.region) :
    selectRegionRenovate entries init = init := by
  induction entries with
  | nil => rfl
  | cons e es ih =>
    have he : strLower e.name ≠ strLower init.region := h e (by simp)
    simp only [selectRegionRenovate, List.foldl_cons, he, if_false]
    exact ih fun x hx => h x (by simp [hx])

/-- The services region loop leaves its accumulator untouched when no entry
lowercases to "americas". -/
theorem selectRegionServices_no_match (entries : List BattleEntry) (init : RegionSel)
    (h : ∀ e ∈ entries, strLower e.name ≠ "americas") :
    selectRegionServices entries init = init := by
  induction entries with
  | nil => rfl
  | cons e es ih =>
    have he : strLower e.name ≠ "americas" := h e (by simp)
    simp only [selectRegionServices, List.foldl_cons, he, if_false]
    exact ih fun x hx => h x (by simp [hx])

/-- The services region loop selects the last entry lowercasing to
"americas". -/
theorem selectRegionServices_match (l1 l2 : List BattleEntry) (m : BattleEntry)
    (init : RegionSel) (hm : strLower m.name = "americas")
    (h2 : ∀ e ∈ l2, strLower e.name ≠ "americas") :
    selectRegionServices (l1 ++ m :: l2) init =
      { region := m.name, current := m.version_name, build := m.build_config } := by
  unfold selectRegionServices
  rw [List.foldl_append, List.foldl_cons, hm, if_pos rfl]
  exact selectRegionServices_no_match l2 _ h2

/-- The lowercased region of the renovate.py loop accumulator never changes:
an entry is only taken when its lowercased name equals the accumulator's
lowercased region, so reassigning the region preserves its lowercasing. -/
theorem selectRegionRenovate_region_invariant (entries : List BattleEntry)
    (init : RegionSel) :
    strLower (selectRegionRenovate entries init).region = strLower init.region := by
  induction entries generalizing init with
  | nil => rfl
  | cons e es ih =>
    simp only [selectRegionRenovate, List.foldl_cons]
    by_cases he : strLower e.name = strLower init.region
    · rw [if_pos he]
      exact (ih ⟨e.name, e.version_name, e.build_config⟩).trans he
    · rw [if_neg he]
      exact ih init

/-- The renovate.py region loop selects the last entry whose name matches
the initially selected (configured) region case-insensitively. -/
theorem selectRegionRenovate_match (l1 l2 : List BattleEntry) (m : BattleEntry)
    (init : RegionSel) (hm : strLower m.name = strLower init.region)
    (h2 : ∀ e ∈ l2, strLower e.name ≠ strLower init.region) :
    selectRegionRenovate (l1 ++ m :: l2) init =
      { region := m.name, current := m.version_name, build := m.build_config } := by
  have hinv := selectRegionRenovate_region_invariant l1 init
  have htail := selectRegionRenovate_no_match l2
    { region := m.name, current := m.version_name, build := m.build_config }
    (fun e he => by simpa [hm] using h2 e he)
  unfold selectRegionRenovate at hinv htail ⊢
  rw [List.foldl_append, List.foldl_cons, if_pos (hm.trans hinv.symm)]
  exact htail

/-! Claim theorems. -/

/-- Claim C4: loading the history store when no history file exists yields
and persists the canonical empty skeleton containing all four platform keys
mapped to empty mappings, and after every load all four platform keys are
present and non-null, even if the loaded file omitted some of them. -/
theorem loadHistory_skeleton_and_keys_present (j : JsonHist) (k : String)
    (hk : k = "battle" ∨ k = "prospero" ∨ k = "orbis" ∨ k = "steam") :
    LoadHistory none = (emptySkeleton, true)
    ∧ ∃ m, jget (LoadHistory (some j)).1 k = some (some m) := by
  constructor
  · decide
  · show ∃ m, jget (normalizeHistory j) k = some (some m)
    unfold normalizeHistory
    rcases hk with h | h | h | h <;> subst h
    · apply fixPlatformKey_preserves _ _ _ (by decide)
      apply fixPlatformKey_preserves _ _ _ (by decide)
      apply fixPlatformKey_preserves _ _ _ (by decide)
      exact fixPlatformKey_nonNull _ _
    · apply fixPlatformKey_preserves _ _ _ (by decide)
      apply fixPlatformKey_preserves _ _ _ (by decide)
      exact fixPlatformKey_nonNull _ _
    · apply fixPlatformKey_preserves _ _ _ (by decide)
      exact fixPlatformKey_nonNull _ _
    · exact fixPlatformKey_nonNull _ _

/-- Witness for claim C4: a history file whose battle key is JSON null still
loads with the battle key present and non-null. -/
theorem loadHistory_skeleton_and_keys_present_witness :
    LoadHistory none = (emptySkeleton, true)
    ∧ ∃ m, jget (LoadHistory (some [("battle", none)])).1 "battle" = some (some m) :=
  loadHistory_skeleton_and_keys_present [("battle", none)] "battle" (Or.inl rfl)

/-- Claim C5 (amended): the utils.py transport retries a failed GET exactly
once after a fixed 10 second backoff and then gives up returning no data,
and POST is never retried, reporting failure after its single attempt; the
handlers/http.py transport performs no retry at all. -/
theorem utilsGET_retries_once_post_never (a1 a2 a3 : Attempt) (raw : Bool)
    (h1 : a1.isFailure = true) (h2 : a2.isFailure = true) :
    ((utilsGET a1 a2 raw).attempts = 2 ∧ (utilsGET a1 a2 raw).sleeps = [10]
      ∧ (utilsGET a1 a2 raw).result = .noData)
    ∧ (utilsPOST a3).attempts = 1 ∧ (utilsPOST a3).sleeps = [] := by
  cases a1 <;> cases a2 <;> cases a3 <;>
    simp_all [utilsGET, utilsPOST, Attempt.isFailure]

/-- Witness for claim C5: a timed-out GET followed by an HTTP 500 on the
retry, and a timed-out POST. -/
theorem utilsGET_retries_once_post_never_witness :
    ((utilsGET .timeout (.httpError 500) false).attempts = 2
      ∧ (utilsGET .timeout (.httpError 500) false).sleeps = [10]
      ∧ (utilsGET .timeout (.httpError 500) false).result = .noData)
    ∧ (utilsPOST .timeout).attempts = 1 ∧ (utilsPOST .timeout).sleeps = [] :=
  utilsGET_retries_once_post_never .timeout (.httpError 500) .timeout false rfl rfl

/-- Counterexample to claim C5 as stated: the handlers/http.py transport
never retries a GET that times out; it makes a single attempt, sleeps never,
and immediately reports no data. -/
theorem httpGET_no_retry_on_timeout :
    (httpGET .timeout).attempts = 1 ∧ (httpGET .timeout).sleeps = []
    ∧ (httpGET .timeout).result = .noData := by
  decide

/-- Claim C6 (amended): the handlers/http.py transport treats an HTTP 500
response as a soft condition: a single attempt, nothing logged at error
severity, no exception propagated, and no data returned. -/
theorem httpGET_500_soft :
    httpGET (.httpError 500)
      = { attempts := 1, sleeps := [], errorLogged := false, result := .noData } := by
  decide

/-- Counterexample to claim C6 as stated: the utils.py transport handles an
HTTP 500 like any HTTP error; after the retry also answers 500 it logs at
error severity before returning no data. -/
theorem utilsGET_500_logs_error :
    (utilsGET (.httpError 500) (.httpError 500) false).errorLogged = true
    ∧ (utilsGET (.httpError 500) (.httpError 500) false).result = .noData := by
  decide

/-- Claim C7 (amended): the handlers/http.py transport returns the raw
response text when the body fails to parse as JSON and raises nothing to
its caller. -/
theorem httpGET_nonjson_returns_raw (b : Body) (h : b.json = none) :
    httpGET (.ok b)
      = { attempts := 1, sleeps := [], errorLogged := false, result := .rawText b.text } := by
  simp [httpGET, h]

/-- Witness for claim C7: a plain-text body. -/
theorem httpGET_nonjson_returns_raw_witness :
    httpGET (.ok { text := "plain text", json := none })
      = { attempts := 1, sleeps := [], errorLogged := false, result := .rawText "plain text" } :=
  httpGET_nonjson_returns_raw { text := "plain text", json := none } rfl

/-- Counterexample to claim C7 as stated: the utils.py transport parses the
body with `json.loads` outside its try block whenever `raw` is false, so a
non-JSON body raises to the caller instead of falling back to raw text. -/
theorem utilsGET_nonjson_raises :
    (utilsGET (.ok { text := "plain text", json := none }) .timeout false).result
      = .raised := by
  decide

/-- Claim C1 (amended): in the renovate.py reconciler, a title whose fetched
version differs from its stored version has its history entry updated to
the new version only after `Notify` reports success; when delivery fails the
history (and the changed flag) keep their pre-cycle values while the same
single notification was still attempted, so re-running with the same
fetched data reproduces the identical attempt. -/
theorem battle_commit_only_after_notify (titleId0 region0 : String) (hist : HMap)
    (changed : Bool) (d : BattleResponse) (e0 : BattleEntry) (rest : List BattleEntry)
    (thumbnail buildName : Option String) (past : String)
    (hs : d.success = true) (hd : d.result.data = e0 :: rest)
    (hp : HMap.get? hist titleId0 = some past)
    (hne : past ≠ (selectRegionRenovate (e0 :: rest)
      { region := region0, current := e0.version_name, build := e0.build_config }).current) :
    ∃ note : Notification,
      ProcessBattleTitle titleId0 region0 hist changed (some d) thumbnail buildName false
        = .ok (hist, changed, [note])
      ∧ ProcessBattleTitle titleId0 region0 hist changed (some d) thumbnail buildName true
        = .ok (HMap.set hist d.result.tact (selectRegionRenovate (e0 :: rest)
            { region := region0, current := e0.version_name, build := e0.build_config }).current,
            true, [note]) := by
  refine ⟨mkBattleNote d.result.name d.result.tact
    (selectRegionRenovate (e0 :: rest)
      { region := region0, current := e0.version_name, build := e0.build_config })
    past thumbnail (if d.result.encrypted then none else buildName) d.result.created_at,
    ?_, ?_⟩
  · simp [ProcessBattleTitle, hs, hd, hp, hne]
  · simp [ProcessBattleTitle, hs, hd, hp, hne]

/-- Witness for claim C1 at a concrete updated title. -/
theorem battle_commit_only_after_notify_witness :
    ∃ note : Notification,
      ProcessBattleTitle "wow" "Americas" [("wow", "1.0")] false
        (some { success := true,
                result := { tact := "wow", name := "World of Warcraft",
                            data := [{ name := "Americas", version_name := "2.0",
                                       build_config := "ab" }],
                            encrypted := true, created_at := "ts" } })
        none none false
        = .ok ([("wow", "1.0")], false, [note])
      ∧ ProcessBattleTitle "wow" "Americas" [("wow", "1.0")] false
        (some { success := true,
                result := { tact := "wow", name := "World of Warcraft",
                            data := [{ name := "Americas", version_name := "2.0",
                                       build_config := "ab" }],
                            encrypted := true, created_at := "ts" } })
        none none true
        = .ok (HMap.set [("wow", "1.0")] "wow"
            (selectRegionRenovate [{ name := "Americas", version_name := "2.0",
                                     build_config := "ab" }]
              { region := "Americas", current := "2.0", build := "ab" }).current,
            true, [note]) :=
  battle_commit_only_after_notify "wow" "Americas" [("wow", "1.0")] false
    { success := true,
      result := { tact := "wow", name := "World of Warcraft",
                  data := [{ name := "Americas", version_name := "2.0",
                             build_config := "ab" }],
                  encrypted := true, created_at := "ts" } }
    { name := "Americas", version_name := "2.0", build_config := "ab" } []
    none none "1.0" rfl rfl rfl (by decide)

/-- Counterexample to claim C1 as stated: the services-variant Steam adapter
commits the new version to history inside `IsUpdated`, before the returned
embed is ever delivered, so the entry no longer holds its pre-cycle value
at the moment delivery is judged, whatever that judgement turns out to be. -/
theorem steam_isUpdated_commits_before_delivery :
    SteamIsUpdated "10" [("10", "100")] false
      (some { status := "success",
              app := { common := some { name := "Game", icon := "ic" },
                       buildid := some "101" } }) 0
      = ([("10", "101")], true,
          some (mkSteamEmbed "10" { name := "Game", icon := "ic" } "100" "101" 0))
    ∧ HMap.get? [("10", "101")] "10" = some "101" := by
  constructor
  · rfl
  · rfl

/-- Claim C2: for a title whose fetched version differs from the stored one
and whose notification is delivered successfully, reconciliation performs
exactly one history write, storing the new version and touching no other
key, and attempts exactly one notification whose payload contains both the
previous and the current version strings verbatim.  Proven for the
renovate.py Prospero reconciler and for the services Prospero adapter,
whose falsy-check demands a non-empty stored version for an update. -/
theorem prospero_update_single_write_single_notification (titleId : String)
    (histR histS : HMap) (changedR changedS : Bool) (d : PSResponse) (p : String)
    (now : Nat)
    (hs : d.success = true)
    (hpR : HMap.get? histR titleId = some p)
    (hpS : HMap.get? histS titleId = some p)
    (hemp : p ≠ "")
    (hne : p ≠ d.metadata.currentVersion) :
    (ProcessProsperoTitle titleId histR changedR (some d) true
        = (HMap.set histR titleId d.metadata.currentVersion, true,
            [mkProsperoNote titleId d.metadata p])
      ∧ HMap.get? (HMap.set histR titleId d.metadata.currentVersion) titleId
          = some d.metadata.currentVersion
      ∧ (∀ k, k ≠ titleId → HMap.get? (HMap.set histR titleId d.metadata.currentVersion) k
          = HMap.get? histR k)
      ∧ (∃ l r, (mkProsperoNote titleId d.metadata p).pastVersion = l ++ p ++ r)
      ∧ (∃ l r, (mkProsperoNote titleId d.metadata p).currentVersion
          = l ++ d.metadata.currentVersion ++ r))
    ∧ (ProsperoIsUpdated titleId histS changedS (some d) now
        = (HMap.set histS titleId d.metadata.currentVersion, true,
            some (mkProsperoEmbed titleId d.metadata p now))
      ∧ (∃ l r, (mkProsperoEmbed titleId d.metadata p now).previousField = l ++ p ++ r)
      ∧ (∃ l r, (mkProsperoEmbed titleId d.metadata p now).currentField
          = l ++ d.metadata.currentVersion ++ r)) := by
  refine ⟨⟨?_, ?_, ?_, ?_, ?_⟩, ?_, ?_, ?_⟩
  · simp [ProcessProsperoTitle, hs, hpR, hne]
  · exact HMap.get_set_self _ _ _
  · intro k hk
    exact HMap.get_set_ne _ _ _ _ hk
  · exact ⟨"`", "`", rfl⟩
  · exact ⟨"`", "`", rfl⟩
  · simp [ProsperoIsUpdated, hs, hpS, hemp, hne]
  · exact ⟨"```diff\n- ", "\n```", rfl⟩
  · exact ⟨"```diff\n+ ", "\n```", rfl⟩

/-- Witness for claim C2 at a concrete updated PlayStation 5 title. -/
theorem prospero_update_single_write_single_notification_witness :
    (ProcessProsperoTitle "PPSA01" [("PPSA01", "1.00")] false
        (some { success := true,
                metadata := { name := "Game", region := "US", currentVersion := "1.01",
                              icon := "ic", background := "bg" } }) true
        = (HMap.set [("PPSA01", "1.00")] "PPSA01" "1.01", true,
            [mkProsperoNote "PPSA01"
              { name := "Game", region := "US", currentVersion := "1.01",
                icon := "ic", background := "bg" } "1.00"])
      ∧ HMap.get? (HMap.set [("PPSA01", "1.00")] "PPSA01" "1.01") "PPSA01" = some "1.01"
      ∧ (∀ k, k ≠ "PPSA01" → HMap.get? (HMap.set [("PPSA01", "1.00")] "PPSA01" "1.01") k
          = HMap.get? [("PPSA01", "1.00")] k)
      ∧ (∃ l r, (mkProsperoNote "PPSA01"
            { name := "Game", region := "US", currentVersion := "1.01",
              icon := "ic", background := "bg" } "1.00").pastVersion = l ++ "1.00" ++ r)
      ∧ (∃ l r, (mkProsperoNote "PPSA01"
            { name := "Game", region := "US", currentVersion := "1.01",
              icon := "ic", background := "bg" } "1.00").currentVersion = l ++ "1.01" ++ r))
    ∧ (ProsperoIsUpdated "PPSA01" [("PPSA01", "1.00")] false
        (some { success := true,
                metadata := { name := "Game", region := "US", currentVersion := "1.01",
                              icon := "ic", background := "bg" } }) 7
        = (HMap.set [("PPSA01", "1.00")] "PPSA01" "1.01", true,
            some (mkProsperoEmbed "PPSA01"
              { name := "Game", region := "US", currentVersion := "1.01",
                icon := "ic", background := "bg" } "1.00" 7))
      ∧ (∃ l r, (mkProsperoEmbed "PPSA01"
            { name := "Game", region := "US", currentVersion := "1.01",
              icon := "ic", background := "bg" } "1.00" 7).previousField = l ++ "1.00" ++ r)
      ∧ (∃ l r, (mkProsperoEmbed "PPSA01"
            { name := "Game", region := "US", currentVersion := "1.01",
              icon := "ic", background := "bg" } "1.00" 7).currentField
          = l ++ "1.01" ++ r)) :=
  prospero_update_single_write_single_notification "PPSA01"
    [("PPSA01", "1.00")] [("PPSA01", "1.00")] false false
    { success := true,
      metadata := { name := "Game", region := "US", currentVersion := "1.01",
                    icon := "ic", background := "bg" } }
    "1.00" 7 rfl rfl rfl (by decide) (by decide)

/-- Claim C3: a title with no prior history entry whose fetch returns data
gets exactly one history write recording the fetched version and no
notification.  Proven for the renovate.py Battle.net reconciler and for the
services Orbis adapter, the two code places the claim points at. -/
theorem first_seen_single_write_zero_notifications (titleId0 region0 tid : String)
    (histB histO : HMap) (changedB changedO : Bool) (d : BattleResponse)
    (e0 : BattleEntry) (rest : List BattleEntry) (thumbnail buildName : Option String)
    (deliver : Bool) (dps : PSResponse) (now : Nat)
    (hs : d.success = true) (hd : d.result.data = e0 :: rest)
    (hpB : HMap.get? histB titleId0 = none)
    (hsO : dps.success = true) (hpO : HMap.get? histO tid = none) :
    ProcessBattleTitle titleId0 region0 histB changedB (some d) thumbnail buildName deliver
      = .ok (HMap.set histB d.result.tact (selectRegionRenovate (e0 :: rest)
          { region := region0, current := e0.version_name, build := e0.build_config }).current,
          true, [])
    ∧ OrbisIsUpdated tid histO changedO (some dps) now
      = (HMap.set histO tid dps.metadata.currentVersion, true, none) := by
  constructor
  · simp [ProcessBattleTitle, hs, hd, hpB]
  · simp [OrbisIsUpdated, hsO, hpO]

/-- Witness for claim C3 at concrete previously-untracked titles. -/
theorem first_seen_single_write_zero_notifications_witness :
    ProcessBattleTitle "wow" "Americas" [] false
      (some { success := true,
              result := { tact := "wow_tact", name := "World of Warcraft",
                          data := [{ name := "Americas", version_name := "2.0",
                                     build_config := "ab" }],
                          encrypted := false, created_at := "ts" } })
      none none true
      = .ok (HMap.set [] "wow_tact" (selectRegionRenovate
          [{ name := "Americas", version_name := "2.0", build_config := "ab" }]
          { region := "Americas", current := "2.0", build := "ab" }).current,
          true, [])
    ∧ OrbisIsUpdated "CUSA01" [] false
      (some { success := true,
              metadata := { name := "Game", region := "US", currentVersion := "1.00",
                            icon := "", background := "" } }) 3
      = (HMap.set [] "CUSA01" "1.00", true, none) :=
  first_seen_single_write_zero_notifications "wow" "Americas" "CUSA01" [] [] false false
    { success := true,
      result := { tact := "wow_tact", name := "World of Warcraft",
                  data := [{ name := "Americas", version_name := "2.0",
                             build_config := "ab" }],
                  encrypted := false, created_at := "ts" } }
    { name := "Americas", version_name := "2.0", build_config := "ab" } [] none none true
    { success := true,
      metadata := { name := "Game", region := "US", currentVersion := "1.00",
                    icon := "", background := "" } }
    3 rfl rfl rfl rfl rfl

/-- Claim C8 (amended): in the services Steam adapter a successful response
lacking the `common` block or the depots/branches/public/buildid path is a
logged no-update for that title and never crashes; in the renovate.py Steam
reconciler only the missing depots path is handled that way, while a
missing `common` block raises.  The handled cases are proven here. -/
theorem steam_missing_fields_no_update_no_crash (appId : String) (hist : HMap)
    (changed : Bool) (c : SteamCommon) (bid : Option String) (now : Nat)
    (deliver : Bool) :
    SteamIsUpdated appId hist changed
        (some { status := "success", app := { common := none, buildid := bid } }) now
      = (hist, changed, none)
    ∧ SteamIsUpdated appId hist changed
        (some { status := "success", app := { common := some c, buildid := none } }) now
      = (hist, changed, none)
    ∧ ProcessSteamTitle appId hist changed
        (some { status := "success", app := { common := some c, buildid := none } }) deliver
      = .ok (hist, changed, []) := by
  refine ⟨?_, ?_, ?_⟩ <;> simp [SteamIsUpdated, ProcessSteamTitle]

/-- Counterexample to claim C8 as stated: the renovate.py Steam reconciler
reads the `common` block with plain subscripts outside any try/except, so a
successful response without it raises an uncaught KeyError, aborting the
run instead of counting a fetch failure for that title only. -/
theorem processSteam_missing_common_crashes :
    ProcessSteamTitle "10" [("10", "100")] false
      (some { status := "success", app := { common := none, buildid := some "101" } }) true
      = .error "KeyError" := by
  rfl

/-- Claim C9 (amended): the Battle.net adapters select the last entry whose
region name matches the preferred region case-insensitively (the hardcoded
"Americas" in the services adapter, the configured region string in the
renovate.py adapter); when no entry matches, the services adapter falls
back to the first entry's version, build, and region name, while the
renovate.py adapter falls back to the first entry's version and build but
keeps the configured preferred region string for display. -/
theorem battle_region_selection (region0 : String) (e0 : BattleEntry)
    (rest l1 l2 l1R l2R : List BattleEntry) (m mR : BattleEntry)
    (init initR : RegionSel)
    (hno : ∀ e ∈ e0 :: rest, strLower e.name ≠ strLower region0)
    (hnam : ∀ e ∈ e0 :: rest, strLower e.name ≠ "americas")
    (hm : strLower m.name = "americas")
    (hl2 : ∀ e ∈ l2, strLower e.name ≠ "americas")
    (hmR : strLower mR.name = strLower initR.region)
    (hl2R : ∀ e ∈ l2R, strLower e.name ≠ strLower initR.region) :
    selectRegionRenovate (e0 :: rest)
        { region := region0, current := e0.version_name, build := e0.build_config }
      = { region := region0, current := e0.version_name, build := e0.build_config }
    ∧ selectRegionServices (e0 :: rest)
        { region := e0.name, current := e0.version_name, build := e0.build_config }
      = { region := e0.name, current := e0.version_name, build := e0.build_config }
    ∧ selectRegionServices (l1 ++ m :: l2) init
      = { region := m.name, current := m.version_name, build := m.build_config }
    ∧ selectRegionRenovate (l1R ++ mR :: l2R) initR
      = { region := mR.name, current := mR.version_name, build := mR.build_config } :=
  ⟨selectRegionRenovate_no_match _ _ hno, selectRegionServices_no_match _ _ hnam,
    selectRegionServices_match l1 l2 m init hm hl2,
    selectRegionRenovate_match l1R l2R mR initR hmR hl2R⟩

/-- Witness for claim C9: one European entry with preferred region Americas
for the fallbacks, a list whose second entry is the Americas entry for the
services selection, and a list whose second entry is spelled "AMERICAS"
with configured region "Americas" for the renovate.py selection. -/
theorem battle_region_selection_witness :
    selectRegionRenovate [{ name := "Europe", version_name := "1.0", build_config := "bc" }]
        { region := "Americas", current := "1.0", build := "bc" }
      = { region := "Americas", current := "1.0", build := "bc" }
    ∧ selectRegionServices [{ name := "Europe", version_name := "1.0", build_config := "bc" }]
        { region := "Europe", current := "1.0", build := "bc" }
      = { region := "Europe", current := "1.0", build := "bc" }
    ∧ selectRegionServices
        ([{ name := "Europe", version_name := "1.0", build_config := "bc" }]
          ++ { name := "Americas", version_name := "1.1", build_config := "bd" } :: [])
        { region := "x", current := "y", build := "z" }
      = { region := "Americas", current := "1.1", build := "bd" }
    ∧ selectRegionRenovate
        ([{ name := "Europe", version_name := "1.0", build_config := "bc" }]
          ++ { name := "AMERICAS", version_name := "1.2", build_config := "be" } :: [])
        { region := "Americas", current := "1.0", build := "bc" }
      = { region := "AMERICAS", current := "1.2", build := "be" } :=
  battle_region_selection "Americas"
    { name := "Europe", version_name := "1.0", build_config := "bc" } []
    [{ name := "Europe", version_name := "1.0", build_config := "bc" }] []
    [{ name := "Europe", version_name := "1.0", build_config := "bc" }] []
    { name := "Americas", version_name := "1.1", build_config := "bd" }
    { name := "AMERICAS", version_name := "1.2", build_config := "be" }
    { region := "x", current := "y", build := "z" }
    { region := "Americas", current := "1.0", build := "bc" }
    (by decide) (by decide) (by decide) (by decide) (by decide) (by decide)

/-- Counterexample to claim C9 as stated: with no entry matching the
preferred region, the renovate.py adapter notifies with the configured
region string "Americas", not the first listed entry's region "Europe". -/
theorem battle_region_fallback_keeps_configured_region :
    ProcessBattleTitle "t1" "Americas" [("t1", "0.9")] false
      (some { success := true,
              result := { tact := "t1", name := "Game",
                          data := [{ name := "Europe", version_name := "1.0",
                                     build_config := "bc" }],
                          encrypted := true, created_at := "ts" } })
      none none true
      = .ok ([("t1", "1.0")], true,
          [mkBattleNote "Game" "t1"
            { region := "Americas", current := "1.0", build := "bc" } "0.9" none none "ts"])
    ∧ ("Americas" : String) ≠ "Europe" := by
  refine ⟨?_, by decide⟩
  rfl

/-- Claim C10: in `ProcessBattleTitle` the prior-version lookup uses the
configured title identifier while every history write goes to the
API-reported tact identifier; hence, whenever the two differ, the entry
under the configured identifier is never touched, and a run that finds no
entry under the configured identifier records the title as first-seen under
the tact key with no notification, leaving the configured key absent so the
next run repeats the same first-seen write. -/
theorem battle_tact_mismatch_first_seen (titleId0 region0 : String) (hist : HMap)
    (changed : Bool) (d : BattleResponse) (e0 : BattleEntry) (rest : List BattleEntry)
    (thumbnail buildName : Option String) (deliver : Bool)
    (hs : d.success = true) (hd : d.result.data = e0 :: rest)
    (hne : titleId0 ≠ d.result.tact) :
    (∀ h' c' notes,
      ProcessBattleTitle titleId0 region0 hist changed (some d) thumbnail buildName deliver
        = .ok (h', c', notes) → HMap.get? h' titleId0 = HMap.get? hist titleId0)
    ∧ (HMap.get? hist titleId0 = none →
        ProcessBattleTitle titleId0 region0 hist changed (some d) thumbnail buildName deliver
          = .ok (HMap.set hist d.result.tact (selectRegionRenovate (e0 :: rest)
              { region := region0, current := e0.version_name, build := e0.build_config }).current,
              true, [])
        ∧ HMap.get? (HMap.set hist d.result.tact (selectRegionRenovate (e0 :: rest)
              { region := region0, current := e0.version_name, build := e0.build_config }).current)
            titleId0 = none) := by
  constructor
  · intro h' c' notes heq
    rcases hp : HMap.get? hist titleId0 with _ | past
    · simp only [ProcessBattleTitle, hs, hd, hp] at heq
      simp at heq
      rw [← heq.1]
      exact (HMap.get_set_ne _ _ _ _ hne).trans hp
    · simp only [ProcessBattleTitle, hs, hd, hp] at heq
      by_cases hpc : past = (selectRegionRenovate (e0 :: rest)
          { region := region0, current := e0.version_name, build := e0.build_config }).current
      · simp [hpc] at heq
        rw [← heq.1]
        exact hp
      · cases deliver with
        | false =>
          simp [hpc] at heq
          rw [← heq.1]
          exact hp
        | true =>
          simp [hpc] at heq
          rw [← heq.1]
          exact (HMap.get_set_ne _ _ _ _ hne).trans hp
  · intro hp
    constructor
    · simp [ProcessBattleTitle, hs, hd, hp]
    · rw [HMap.get_set_ne _ _ _ _ hne]
      exact hp

/-- Witness for claim C10: a configured identifier differing from the tact
identifier, with an empty history. -/
theorem battle_tact_mismatch_first_seen_witness :
    (∀ h' c' notes,
      ProcessBattleTitle "wow_classic" "Americas" [] false
        (some { success := true,
                result := { tact := "wow_classic_era", name := "WoW Classic",
                            data := [{ name := "Americas", version_name := "3.0",
                                       build_config := "cd" }],
                            encrypted := true, created_at := "ts" } })
        none none true
        = .ok (h', c', notes) → HMap.get? h' "wow_classic" = HMap.get? [] "wow_classic")
    ∧ (HMap.get? ([] : HMap) "wow_classic" = none →
        ProcessBattleTitle "wow_classic" "Americas" [] false
          (some { success := true,
                  result := { tact := "wow_classic_era", name := "WoW Classic",
                              data := [{ name := "Americas", version_name := "3.0",
                                         build_config := "cd" }],
                              encrypted := true, created_at := "ts" } })
          none none true
          = .ok (HMap.set [] "wow_classic_era" (selectRegionRenovate
              [{ name := "Americas", version_name := "3.0", build_config := "cd" }]
              { region := "Americas", current := "3.0", build := "cd" }).current,
              true, [])
        ∧ HMap.get? (HMap.set [] "wow_classic_era" (selectRegionRenovate
              [{ name := "Americas", version_name := "3.0", build_config := "cd" }]
              { region := "Americas", current := "3.0", build := "cd" }).current)
            "wow_classic" = none) :=
  battle_tact_mismatch_first_seen "wow_classic" "Americas" [] false
    { success := true,
      result := { tact := "wow_classic_era", name := "WoW Classic",
                  data := [{ name := "Americas", version_name := "3.0",
                             build_config := "cd" }],
                  encrypted := true, created_at := "ts" } }
    { name := "Americas", version_name := "3.0", build_config := "cd" } []
    none none true rfl rfl (by decide)
